import Mathlib

/-!
Verification of the workflow orchestration and registry subsystem of the
orch_agents repository (backend/orchestrator/__init__.py and
backend/orchestrator/api.py), as a shallow embedding in Lean 4.

Modelling conventions:
* Timestamps (`asyncio.get_event_loop().time()` readings) are integers passed
  explicitly to every operation as a `now` argument.  Within one registry
  operation the source may read the clock more than once (e.g. `created_at`
  and `updated_at` in `register_workflow` are two consecutive readings); the
  model uses the single `now` for all readings of one operation.
* A Python dict is an association list with unique keys kept in insertion
  order; `d[k] = v` replaces the first binding in place or appends, `d.get(k)`
  returns the first binding, `k in d` is definedness of the lookup.
* Structured stage payloads (`Dict[str, Any]` values) are `StageVal.payload`;
  string-valued entries (the recommendation) are `StageVal.str`.  Python
  truthiness of `task_result.result` (`if task_result.result:`) is false for
  `None`, the empty dict and the empty string.
* `raise ValueError(...)` in the Manager / API layer is modelled with
  `Except.error` carrying an `OrchError` that distinguishes the messages the
  source produces ("not found", "Cannot cancel ...", "is not completed").
  `WorkflowRegistry.get_workflow` returns `Optional[Dict]`, i.e. `Option`,
  and has no raising path at all.
* `run_workflow` takes the outcome of the external
  `workflow_manager.process_proposal` call as an `Except` argument (the stage
  computations are out of scope); `t0` is the clock at register/start time and
  `t1` the clock at the post-`process` bookkeeping steps.  Since the source
  mutates the shared registry even on the failure path before re-raising, the
  model returns the final registry in both outcomes, paired with the
  `Except` result.
-/

/-- `WorkflowStatus` enum of backend/orchestrator/__init__.py. -/
inductive WorkflowStatus where
  | pending
  | running
  | completed
  | failed
  | canceled
  | timeout
deriving DecidableEq, Repr

/-- A structured value stored in a workflow's `results` mapping or carried by a
task result: either a JSON-object-like payload (`Dict[str, Any]`, modelled as a
finite string-keyed map) or a plain string (the recommendation). -/
inductive StageVal where
  | payload (entries : List (String × String))
  | str (s : String)
deriving DecidableEq, Repr

/-- Python truthiness of a stage value: the empty dict and the empty string
are falsy. -/
def StageVal.truthy : StageVal → Bool
  | .payload entries => !entries.isEmpty
  | .str s => !s.isEmpty

/-- `WorkflowTaskResult` dataclass. `processing_time_ms` is a float in the
source; its numeric value is irrelevant to every claim and is modelled as an
integer. -/
structure WorkflowTaskResult where
  task_id : String
  agent_type : String
  status : String
  result : Option StageVal := none
  error : Option String := none
  processing_time_ms : Option Int := none
deriving DecidableEq, Repr

/-- The per-workflow record dict created by `WorkflowRegistry.register_workflow`.
`type` (a `WorkflowType`) is modelled as a string tag. -/
structure WorkflowRecord where
  id : String
  type : String
  status : WorkflowStatus
  tasks : List WorkflowTaskResult
  created_at : Int
  updated_at : Int
  completed_at : Option Int
  results : List (String × StageVal)
deriving DecidableEq, Repr

/-- The registry's `self._workflows` dict: id-keyed, insertion ordered. -/
abbrev Registry := List (String × WorkflowRecord)

/-- Python `d[k] = v`: replace the first binding of `k` in place, or append a
new binding. -/
def dictSet {κ α : Type} [DecidableEq κ] (k : κ) (v : α) : List (κ × α) → List (κ × α)
  | [] => [(k, v)]
  | (k', v') :: rest => if k' = k then (k, v) :: rest else (k', v') :: dictSet k v rest

/-- Python `d.get(k)`: the first binding of `k`, if any. -/
def dictGet {κ α : Type} [DecidableEq κ] (k : κ) : List (κ × α) → Option α
  | [] => none
  | (k', v) :: rest => if k' = k then some v else dictGet k rest

/-- The fresh record dict built by `register_workflow`. -/
def freshRecord (workflow_id workflow_type : String) (now : Int) : WorkflowRecord :=
  { id := workflow_id
    type := workflow_type
    status := WorkflowStatus.pending
    tasks := []
    created_at := now
    updated_at := now
    completed_at := none
    results := [] }

/-- `WorkflowRegistry.register_workflow`: unconditionally binds a fresh record
to the id, overwriting any existing one. -/
def register_workflow (workflow_id workflow_type : String) (now : Int)
    (reg : Registry) : Registry :=
  dictSet workflow_id (freshRecord workflow_id workflow_type now) reg

/-- The field updates `update_workflow_status` performs on a present record:
set `status`, set `updated_at`, and (re)set `completed_at` whenever the new
status is COMPLETED or FAILED. -/
def statusUpd (status : WorkflowStatus) (now : Int) (w : WorkflowRecord) :
    WorkflowRecord :=
  { w with
    status := status
    updated_at := now
    completed_at :=
      if status = WorkflowStatus.completed ∨ status = WorkflowStatus.failed
      then some now else w.completed_at }

/-- `WorkflowRegistry.update_workflow_status`: no-op when the id is absent. -/
def update_workflow_status (workflow_id : String) (status : WorkflowStatus)
    (now : Int) (reg : Registry) : Registry :=
  match dictGet workflow_id reg with
  | none => reg
  | some w => dictSet workflow_id (statusUpd status now w) reg

/-- The field updates `add_task_result` performs on a present record: append
the task, set `updated_at`, and, when the task carries a truthy result, write
`results[task.agent_type]`. -/
def taskUpd (task_result : WorkflowTaskResult) (now : Int) (w : WorkflowRecord) :
    WorkflowRecord :=
  let w1 := { w with tasks := w.tasks ++ [task_result], updated_at := now }
  match task_result.result with
  | some v =>
      if v.truthy then
        { w1 with results := dictSet task_result.agent_type v w1.results }
      else w1
  | none => w1

/-- `WorkflowRegistry.add_task_result`: no-op when the id is absent. -/
def add_task_result (workflow_id : String) (task_result : WorkflowTaskResult)
    (now : Int) (reg : Registry) : Registry :=
  match dictGet workflow_id reg with
  | none => reg
  | some w => dictSet workflow_id (taskUpd task_result now w) reg

/-- `WorkflowRegistry.get_workflow`: `self._workflows.get(workflow_id)` —
returns the record or the `None` sentinel; there is no raising path. -/
def get_workflow (workflow_id : String) (reg : Registry) : Option WorkflowRecord :=
  dictGet workflow_id reg

/-- `WorkflowRegistry.get_all_workflows`: `list(self._workflows.values())`. -/
def get_all_workflows (reg : Registry) : List WorkflowRecord :=
  reg.map Prod.snd

/-- `WorkflowRegistry.cleanup_old_workflows`: collects every id whose age
`now - created_at` strictly exceeds `max_age_hours * 3600` seconds, deletes
exactly those bindings, and returns how many were deleted (keys of a Python
dict are unique, so deleting the collected ids is filtering the entries). -/
def cleanup_old_workflows (max_age_hours : Int) (now : Int) (reg : Registry) :
    Int × Registry :=
  let max_age_seconds := max_age_hours * 3600
  ((reg.filter (fun p => decide (now - p.2.created_at > max_age_seconds))).length,
   reg.filter (fun p => decide (¬ (now - p.2.created_at > max_age_seconds))))

/-- The distinguishable `ValueError` families raised by the Manager / API
layer: "Workflow {id} not found", "Cannot cancel workflow with status {s}",
and "Workflow {id} is not completed (status: {s})". -/
inductive OrchError where
  | notFound (workflow_id : String)
  | invalidState (workflow_id : String) (status : WorkflowStatus)
  | notCompleted (workflow_id : String) (status : WorkflowStatus)
deriving DecidableEq, Repr

/-- The dict returned by `OrchestrationManager.get_workflow_status`. -/
structure WorkflowStatusView where
  id : String
  status : WorkflowStatus
  type : String
  created_at : Int
  updated_at : Int
  completed_at : Option Int
  task_count : Nat
  results : List (String × StageVal)
deriving DecidableEq, Repr

/-- `OrchestrationManager.get_workflow_status`: raises not-found for an absent
id; otherwise returns the summary with every `results` entry except a key
literally named "recommendation". -/
def get_workflow_status (workflow_id : String) (reg : Registry) :
    Except OrchError WorkflowStatusView :=
  match get_workflow workflow_id reg with
  | none => Except.error (OrchError.notFound workflow_id)
  | some w =>
      Except.ok
        { id := workflow_id
          status := w.status
          type := w.type
          created_at := w.created_at
          updated_at := w.updated_at
          completed_at := w.completed_at
          task_count := w.tasks.length
          results := w.results.filter (fun p => p.1 != "recommendation") }

/-- The dict returned by a successful `cancel_workflow`. -/
structure CancelView where
  id : String
  status : WorkflowStatus
  message : String
deriving DecidableEq, Repr

/-- `OrchestrationManager.cancel_workflow`: not-found when absent, invalid
state unless the current status is RUNNING, otherwise an `update_status` to
CANCELED. -/
def cancel_workflow (workflow_id : String) (now : Int) (reg : Registry) :
    Except OrchError (CancelView × Registry) :=
  match get_workflow workflow_id reg with
  | none => Except.error (OrchError.notFound workflow_id)
  | some w =>
      if w.status = WorkflowStatus.running then
        Except.ok
          ({ id := workflow_id
             status := WorkflowStatus.canceled
             message := "Workflow " ++ workflow_id ++ " has been canceled" },
           update_workflow_status workflow_id WorkflowStatus.canceled now reg)
      else Except.error (OrchError.invalidState workflow_id w.status)

/-- The dict returned by a successful `run_workflow`. -/
structure RunResult where
  proposal_id : String
  compliance : StageVal
  evaluation : StageVal
  market : StageVal
  recommendation : StageVal
  processing_time_ms : Int
  workflow_type : String
deriving DecidableEq, Repr

/-- `OrchestrationManager.run_workflow`.  `outcome` is the result of the
external `workflow_manager.process_proposal` call (a dict of stage entries, or
the raised exception's message).  Success path: one task result per entry
whose key is neither "workflow" nor "recommendation", then an update to
COMPLETED, then the aggregated return value.  Failure path: update to FAILED,
append the single synthetic "orchestrator" error task, and re-raise.  The
shared registry is returned in both cases. -/
def run_workflow (proposal_id user_id workflow_type : String)
    (outcome : Except String (List (String × StageVal))) (t0 t1 : Int)
    (reg : Registry) : Except String RunResult × Registry :=
  let reg1 := register_workflow proposal_id workflow_type t0 reg
  let reg2 := update_workflow_status proposal_id WorkflowStatus.running t0 reg1
  match outcome with
  | Except.error e =>
      let reg3 := update_workflow_status proposal_id WorkflowStatus.failed t1 reg2
      let reg4 := add_task_result proposal_id
        { task_id := proposal_id ++ "-error"
          agent_type := "orchestrator"
          status := "failed"
          result := none
          error := some e
          processing_time_ms := none } t1 reg3
      (Except.error e, reg4)
  | Except.ok results =>
      let processing_time_ms := (t1 - t0) * 1000
      let reg3 := results.foldl (fun acc kv =>
        if kv.1 = "workflow" ∨ kv.1 = "recommendation" then acc
        else add_task_result proposal_id
          { task_id := proposal_id ++ "-" ++ kv.1
            agent_type := kv.1
            status := "completed"
            result := some kv.2
            error := none
            processing_time_ms := some (processing_time_ms / (results.length : Int)) }
          t1 acc) reg2
      let reg4 := update_workflow_status proposal_id WorkflowStatus.completed t1 reg3
      (Except.ok
        { proposal_id := proposal_id
          compliance := (dictGet "compliance" results).getD (StageVal.payload [])
          evaluation := (dictGet "evaluation" results).getD (StageVal.payload [])
          market := (dictGet "market" results).getD (StageVal.payload [])
          recommendation := (dictGet "recommendation" results).getD (StageVal.str "")
          processing_time_ms := processing_time_ms
          workflow_type := workflow_type },
       reg4)

/-- The response of the `GET .../workflows/{id}/result` route. -/
structure WorkflowResultResponse where
  proposal_id : String
  workflow_type : String
  processing_time_ms : Int
  compliance : StageVal
  evaluation : StageVal
  market : StageVal
  recommendation : StageVal
deriving DecidableEq, Repr

/-- `api.get_workflow_result`: not-found when absent, an error unless the
status is COMPLETED, otherwise the stored stage payloads with defaults, the
recommendation defaulting to the literal "No recommendation available". -/
def get_workflow_result (workflow_id : String) (reg : Registry) :
    Except OrchError WorkflowResultResponse :=
  match get_workflow workflow_id reg with
  | none => Except.error (OrchError.notFound workflow_id)
  | some w =>
      if w.status = WorkflowStatus.completed then
        Except.ok
          { proposal_id := workflow_id
            workflow_type := w.type
            processing_time_ms :=
              match w.completed_at with
              | some c => (c - w.created_at) * 1000
              | none => 0
            compliance := (dictGet "compliance" w.results).getD (StageVal.payload [])
            evaluation := (dictGet "evaluation" w.results).getD (StageVal.payload [])
            market := (dictGet "market" w.results).getD (StageVal.payload [])
            recommendation := (dictGet "recommendation" w.results).getD
              (StageVal.str "No recommendation available") }
      else Except.error (OrchError.notCompleted workflow_id w.status)

/-- One registry operation, tagged with the clock reading it takes. -/
inductive RegistryOp where
  | regOp (workflow_id workflow_type : String) (now : Int)
  | statusOp (workflow_id : String) (status : WorkflowStatus) (now : Int)
  | taskOp (workflow_id : String) (task_result : WorkflowTaskResult) (now : Int)
  | cleanupOp (max_age_hours : Int) (now : Int)
deriving DecidableEq, Repr

/-- The registry state after one operation (cleanup's returned count dropped). -/
def applyRegistryOp : RegistryOp → Registry → Registry
  | RegistryOp.regOp i ty n, reg => register_workflow i ty n reg
  | RegistryOp.statusOp i st n, reg => update_workflow_status i st n reg
  | RegistryOp.taskOp i t n, reg => add_task_result i t n reg
  | RegistryOp.cleanupOp m n, reg => (cleanup_old_workflows m n reg).2

/-- The clock reading an operation takes. -/
def RegistryOp.now : RegistryOp → Int
  | RegistryOp.regOp _ _ n => n
  | RegistryOp.statusOp _ _ n => n
  | RegistryOp.taskOp _ _ n => n
  | RegistryOp.cleanupOp _ n => n

/-- Whether the operation is a (record-replacing) registration of this id. -/
def RegistryOp.isRegisterOf : RegistryOp → String → Bool
  | RegistryOp.regOp i _ _, workflow_id => i == workflow_id
  | _, _ => false

/-- A sequence of `update_workflow_status` calls on one id,
applied in order; each element carries the new status and the clock reading. -/
def applyStatusUpdates (workflow_id : String) (us : List (WorkflowStatus × Int))
    (reg : Registry) : Registry :=
  us.foldl (fun acc u => update_workflow_status workflow_id u.1 u.2 acc) reg

/-- Starting from a prior `completed_at` value `c`, the `completed_at` value
after a sequence of status updates: the clock reading of the last update whose
status is COMPLETED or FAILED, or `c` when the sequence has none. -/
def lastTerminalWrite (c : Option Int) (us : List (WorkflowStatus × Int)) :
    Option Int :=
  us.foldl
    (fun acc u =>
      if u.1 = WorkflowStatus.completed ∨ u.1 = WorkflowStatus.failed
      then some u.2 else acc) c

/-!
Reference-semantics model of the registry, for the ownership claim about
`get_workflow` / `get_all_workflows`.  In the source, the registry's values
are Python dict objects and `get_workflow` returns `self._workflows.get(id)`
— the stored object itself, not a copy.  To state what happens when a caller
mutates that object, records are placed in an address-indexed store and the
id table maps ids to addresses; `get_workflow` hands out the stored address,
and registry mutations write through the very same address. -/
structure RefRegistry where
  table : List (String × Nat)
  store : List (Nat × WorkflowRecord)
  next_addr : Nat
deriving DecidableEq, Repr

/-- The registry before any registration. -/
def RefRegistry.empty : RefRegistry := { table := [], store := [], next_addr := 0 }

/-- `register_workflow` under reference semantics:
`self._workflows[workflow_id] = { ... }` allocates a fresh dict object and
binds the id to it. -/
def RefRegistry.register_workflow_ref (reg : RefRegistry)
    (workflow_id workflow_type : String) (now : Int) : RefRegistry :=
  { table := dictSet workflow_id reg.next_addr reg.table
    store := dictSet reg.next_addr (freshRecord workflow_id workflow_type now) reg.store
    next_addr := reg.next_addr + 1 }

/-- `get_workflow` under reference semantics: the caller receives the stored
object (its address), not a copy. -/
def RefRegistry.get_workflow_ref (reg : RefRegistry) (workflow_id : String) :
    Option Nat :=
  dictGet workflow_id reg.table

/-- Dereference an object: what a holder of the returned dict observes. -/
def RefRegistry.read (reg : RefRegistry) (addr : Nat) : Option WorkflowRecord :=
  dictGet addr reg.store

/-- An in-place mutation of the dict object at `addr` — e.g. a caller doing
`workflow["status"] = ...` on the value `get_workflow` returned. -/
def RefRegistry.write_through (reg : RefRegistry) (addr : Nat)
    (f : WorkflowRecord → WorkflowRecord) : RefRegistry :=
  { reg with
    store :=
      match dictGet addr reg.store with
      | none => reg.store
      | some w => dictSet addr (f w) reg.store }

/-- `update_workflow_status` under reference semantics: the registry mutates
the stored dict object in place (same address, updated fields). -/
def RefRegistry.update_status_ref (reg : RefRegistry) (workflow_id : String)
    (status : WorkflowStatus) (now : Int) : RefRegistry :=
  match dictGet workflow_id reg.table with
  | none => reg
  | some a => reg.write_through a (statusUpd status now)

/-! ### Helper lemmas about the dict operations -/

theorem dictGet_dictSet_self {κ α : Type} [DecidableEq κ] (k : κ) (v : α)
    (l : List (κ × α)) : dictGet k (dictSet k v l) = some v := by
  induction l with
  | nil => simp [dictSet, dictGet]
  | cons p rest ih =>
      obtain ⟨k', v'⟩ := p
      by_cases h : k' = k
      · simp [dictSet, dictGet, h]
      · simp [dictSet, dictGet, h, ih]

theorem dictGet_dictSet_ne {κ α : Type} [DecidableEq κ] {k' k : κ} (v : α)
    (l : List (κ × α)) (h : k' ≠ k) :
    dictGet k' (dictSet k v l) = dictGet k' l := by
  have h' : ¬ (k = k') := fun hh => h hh.symm
  induction l with
  | nil => simp [dictSet, dictGet, h']
  | cons p rest ih =>
      obtain ⟨k0, v0⟩ := p
      by_cases h0 : k0 = k
      · subst h0
        simp [dictSet, dictGet, h']
      · simp [dictSet, dictGet, h0, ih]

theorem dictSet_dictSet_self {κ α : Type} [DecidableEq κ] (k : κ) (v1 v2 : α)
    (l : List (κ × α)) : dictSet k v2 (dictSet k v1 l) = dictSet k v2 l := by
  induction l with
  | nil => simp [dictSet]
  | cons p rest ih =>
      obtain ⟨k0, v0⟩ := p
      by_cases h0 : k0 = k
      · simp [dictSet, h0]
      · simp [dictSet, h0, ih]

theorem mem_dictSet {κ α : Type} [DecidableEq κ] {k : κ} {v : α}
    {l : List (κ × α)} {p : κ × α} (hp : p ∈ dictSet k v l) :
    p = (k, v) ∨ p ∈ l := by
  induction l with
  | nil => simpa [dictSet] using hp
  | cons q rest ih =>
      obtain ⟨k0, v0⟩ := q
      by_cases h0 : k0 = k
      · simp only [dictSet, if_pos h0, List.mem_cons] at hp
        rcases hp with h | h
        · exact Or.inl h
        · exact Or.inr (List.mem_cons_of_mem _ h)
      · simp only [dictSet, if_neg h0, List.mem_cons] at hp
        rcases hp with h | h
        · exact Or.inr (by simp [h])
        · rcases ih h with h' | h'
          · exact Or.inl h'
          · exact Or.inr (List.mem_cons_of_mem _ h')

theorem mem_of_dictGet_eq_some {κ α : Type} [DecidableEq κ] {k : κ} {v : α}
    {l : List (κ × α)} (h : dictGet k l = some v) : (k, v) ∈ l := by
  induction l with
  | nil => simp [dictGet] at h
  | cons q rest ih =>
      obtain ⟨k0, v0⟩ := q
      by_cases h0 : k0 = k
      · subst h0
        have hdg : dictGet k0 ((k0, v0) :: rest) = some v0 := by simp [dictGet]
        rw [hdg] at h
        have hv : v0 = v := by simpa using h
        subst hv
        exact List.mem_cons_self _ _
      · simp only [dictGet, if_neg h0] at h
        exact List.mem_cons_of_mem _ (ih h)

theorem dictGet_eq_none_of_not_mem_keys {κ α : Type} [DecidableEq κ] {k : κ}
    {l : List (κ × α)} (h : k ∉ l.map Prod.fst) : dictGet k l = none := by
  induction l with
  | nil => rfl
  | cons q rest ih =>
      obtain ⟨k0, v0⟩ := q
      simp only [List.map_cons, List.mem_cons] at h
      push_neg at h
      simp only [dictGet, if_neg (Ne.symm h.1)]
      exact ih h.2

theorem dictGet_filter_eq_none {κ α : Type} [DecidableEq κ] (k : κ)
    (f : κ × α → Bool) (l : List (κ × α)) (h : dictGet k l = none) :
    dictGet k (l.filter f) = none := by
  induction l with
  | nil => rfl
  | cons q rest ih =>
      obtain ⟨k0, v0⟩ := q
      by_cases h0 : k0 = k
      · simp [dictGet, h0] at h
      · simp only [dictGet, if_neg h0] at h
        cases hf : f (k0, v0) with
        | true => simp only [List.filter_cons, hf, if_pos rfl, dictGet, if_neg h0]
                  exact ih h
        | false => simpa only [List.filter_cons, hf] using ih h

theorem dictGet_filter_iff {κ α : Type} [DecidableEq κ] (k : κ) (v : α)
    (f : κ × α → Bool) (l : List (κ × α)) (hnd : (l.map Prod.fst).Nodup) :
    dictGet k (l.filter f) = some v ↔ dictGet k l = some v ∧ f (k, v) = true := by
  induction l with
  | nil => simp [dictGet]
  | cons q rest ih =>
      obtain ⟨k0, v0⟩ := q
      simp only [List.map_cons, List.nodup_cons] at hnd
      obtain ⟨hk0, hnd'⟩ := hnd
      by_cases h0 : k0 = k
      · subst h0
        have hrest : dictGet k0 rest = none :=
          dictGet_eq_none_of_not_mem_keys hk0
        have hrestf : dictGet k0 (rest.filter f) = none :=
          dictGet_filter_eq_none k0 f rest hrest
        have hR : dictGet k0 ((k0, v0) :: rest) = some v0 := by simp [dictGet]
        rw [hR]
        cases hf : f (k0, v0) with
        | true =>
            have hL : dictGet k0 (((k0, v0) :: rest).filter f) = some v0 := by
              simp [List.filter_cons, hf, dictGet]
            rw [hL]
            constructor
            · intro h
              have hv : v0 = v := by simpa using h
              subst hv
              exact ⟨rfl, hf⟩
            · exact fun h => h.1
        | false =>
            have hL : dictGet k0 (((k0, v0) :: rest).filter f) = none := by
              simpa [List.filter_cons, hf] using hrestf
            rw [hL]
            constructor
            · intro h; exact absurd h (by simp)
            · rintro ⟨hsome, hfv⟩
              have hv : v0 = v := by simpa using hsome
              subst hv
              exact absurd hfv (by simp [hf])
      · have hR : dictGet k ((k0, v0) :: rest) = dictGet k rest := by
          simp [dictGet, h0]
        have hL : dictGet k (((k0, v0) :: rest).filter f)
            = dictGet k (rest.filter f) := by
          cases hf : f (k0, v0) with
          | true => simp [List.filter_cons, hf, dictGet, h0]
          | false => simp [List.filter_cons, hf]
        rw [hL, hR]
        exact ih hnd'

theorem length_filter_partition {α : Type} (p : α → Bool) (l : List α) :
    (l.filter p).length + (l.filter (fun x => !(p x))).length = l.length := by
  induction l with
  | nil => rfl
  | cons a t ih =>
      cases h : p a <;> simp [List.filter_cons, h] <;> omega

/-! ### Lookup behaviour of the individual registry operations -/

theorem dictGet_register_self (workflow_id workflow_type : String) (now : Int)
    (reg : Registry) :
    dictGet workflow_id (register_workflow workflow_id workflow_type now reg)
      = some (freshRecord workflow_id workflow_type now) := by
  simp [register_workflow, dictGet_dictSet_self]

theorem dictGet_update_status_self (workflow_id : String) (st : WorkflowStatus)
    (now : Int) (reg : Registry) :
    dictGet workflow_id (update_workflow_status workflow_id st now reg)
      = (dictGet workflow_id reg).map (statusUpd st now) := by
  unfold update_workflow_status
  cases h : dictGet workflow_id reg with
  | none => simp [h]
  | some w => simp [dictGet_dictSet_self]

theorem dictGet_add_task_self (workflow_id : String) (t : WorkflowTaskResult)
    (now : Int) (reg : Registry) :
    dictGet workflow_id (add_task_result workflow_id t now reg)
      = (dictGet workflow_id reg).map (taskUpd t now) := by
  unfold add_task_result
  cases h : dictGet workflow_id reg with
  | none => simp [h]
  | some w => simp [dictGet_dictSet_self]

theorem dictGet_update_status_ne {workflow_id' workflow_id : String}
    (st : WorkflowStatus) (now : Int) (reg : Registry)
    (h : workflow_id' ≠ workflow_id) :
    dictGet workflow_id' (update_workflow_status workflow_id st now reg)
      = dictGet workflow_id' reg := by
  unfold update_workflow_status
  cases hg : dictGet workflow_id reg with
  | none => rfl
  | some w => exact dictGet_dictSet_ne _ _ h

theorem dictGet_add_task_ne {workflow_id' workflow_id : String}
    (t : WorkflowTaskResult) (now : Int) (reg : Registry)
    (h : workflow_id' ≠ workflow_id) :
    dictGet workflow_id' (add_task_result workflow_id t now reg)
      = dictGet workflow_id' reg := by
  unfold add_task_result
  cases hg : dictGet workflow_id reg with
  | none => rfl
  | some w => exact dictGet_dictSet_ne _ _ h

theorem foldl_lookup_congr {β : Type} (pid : String) (step : Registry → β → Registry)
    (hstep : ∀ a b x, dictGet pid a = dictGet pid b →
      dictGet pid (step a x) = dictGet pid (step b x))
    (l : List β) (a b : Registry) (h : dictGet pid a = dictGet pid b) :
    dictGet pid (l.foldl step a) = dictGet pid (l.foldl step b) := by
  induction l generalizing a b with
  | nil => exact h
  | cons x t ih => exact ih _ _ (hstep a b x h)

theorem taskUpd_created_at (t : WorkflowTaskResult) (now : Int) (w : WorkflowRecord) :
    (taskUpd t now w).created_at = w.created_at := by
  unfold taskUpd
  cases t.result with
  | none => rfl
  | some v =>
      by_cases hv : v.truthy = true
      · simp [hv]
      · simp [hv]

theorem taskUpd_updated_at (t : WorkflowTaskResult) (now : Int) (w : WorkflowRecord) :
    (taskUpd t now w).updated_at = now := by
  unfold taskUpd
  cases t.result with
  | none => rfl
  | some v =>
      by_cases hv : v.truthy = true
      · simp [hv]
      · simp [hv]

theorem taskUpd_tasks (t : WorkflowTaskResult) (now : Int) (w : WorkflowRecord) :
    (taskUpd t now w).tasks = w.tasks ++ [t] := by
  unfold taskUpd
  cases t.result with
  | none => rfl
  | some v =>
      by_cases hv : v.truthy = true
      · simp [hv]
      · simp [hv]

theorem taskUpd_status (t : WorkflowTaskResult) (now : Int) (w : WorkflowRecord) :
    (taskUpd t now w).status = w.status := by
  unfold taskUpd
  cases t.result with
  | none => rfl
  | some v =>
      by_cases hv : v.truthy = true
      · simp [hv]
      · simp [hv]

theorem taskUpd_results_mono (t : WorkflowTaskResult) (now : Int)
    (w : WorkflowRecord) (k : String) (v : StageVal)
    (h : dictGet k w.results = some v) :
    ∃ x, dictGet k (taskUpd t now w).results = some x := by
  unfold taskUpd
  cases t.result with
  | none => exact ⟨v, h⟩
  | some sv =>
      by_cases hv : sv.truthy = true
      · simp only [if_pos hv]
        by_cases hk : k = t.agent_type
        · subst hk
          exact ⟨sv, dictGet_dictSet_self _ _ _⟩
        · exact ⟨v, by rw [dictGet_dictSet_ne _ _ hk]; exact h⟩
      · simp only [if_neg hv]
        exact ⟨v, h⟩

theorem run_workflow_lookup_congr (pid uid wty : String)
    (outcome : Except String (List (String × StageVal))) (t0 t1 : Int)
    (regA regB : Registry) :
    dictGet pid ((run_workflow pid uid wty outcome t0 t1 regA).2)
      = dictGet pid ((run_workflow pid uid wty outcome t0 t1 regB).2) := by
  have h2 : ∀ reg : Registry,
      dictGet pid (update_workflow_status pid WorkflowStatus.running t0
        (register_workflow pid wty t0 reg))
        = some (statusUpd WorkflowStatus.running t0 (freshRecord pid wty t0)) := by
    intro reg
    rw [dictGet_update_status_self, dictGet_register_self]
    rfl
  cases outcome with
  | error e =>
      simp only [run_workflow]
      simp only [dictGet_add_task_self, dictGet_update_status_self,
        dictGet_register_self, Option.map_some']
  | ok results =>
      simp only [run_workflow]
      simp only [dictGet_update_status_self]
      congr 1
      refine foldl_lookup_congr pid _ ?_ results _ _ (by rw [h2, h2])
      intro a b x hab
      dsimp only
      by_cases hc : x.1 = "workflow" ∨ x.1 = "recommendation"
      · simpa only [if_pos hc] using hab
      · simp only [if_neg hc, dictGet_add_task_self, hab]

/-! ### Claim theorems -/

/-- Claim C1, amended: for every registered workflow id and every sequence of
`update_status` calls on it, `completed_at` is unset until the first
transition to COMPLETED or FAILED and is assigned the clock reading of the
most recent COMPLETED/FAILED transition — it is rewritten, not immutable,
when further COMPLETED/FAILED updates are issued (`lastTerminalWrite` is the
time of the last terminal update in the sequence, or the prior value when the
sequence has none). -/
theorem C1_completed_at_tracks_last_terminal (workflow_id : String)
    (us : List (WorkflowStatus × Int)) (reg : Registry) (r : WorkflowRecord)
    (h : dictGet workflow_id reg = some r) :
    ∃ r', dictGet workflow_id (applyStatusUpdates workflow_id us reg) = some r' ∧
      r'.completed_at = lastTerminalWrite r.completed_at us := by
  induction us generalizing reg r with
  | nil => exact ⟨r, h, rfl⟩
  | cons u rest ih =>
      have h1 : dictGet workflow_id
          (update_workflow_status workflow_id u.1 u.2 reg)
            = some (statusUpd u.1 u.2 r) := by
        rw [dictGet_update_status_self, h]
        rfl
      obtain ⟨r', hr', hc⟩ := ih _ _ h1
      exact ⟨r', hr', hc⟩

/-- Claim C1 counterexample: a second COMPLETED update at a later clock
reading overwrites `completed_at` (1 becomes 2), so `completed_at` is not
immutable after the first terminal transition as the claim states. -/
theorem C1_counterexample :
    ((dictGet "w" (update_workflow_status "w" WorkflowStatus.completed 1
        (register_workflow "w" "standard" 0 []))).map WorkflowRecord.completed_at
      = some (some 1)) ∧
    ((dictGet "w" (update_workflow_status "w" WorkflowStatus.completed 2
        (update_workflow_status "w" WorkflowStatus.completed 1
          (register_workflow "w" "standard" 0 [])))).map WorkflowRecord.completed_at
      = some (some 2)) := by
  exact ⟨rfl, rfl⟩

/-- Witness for C1: the amended theorem applied to a freshly registered
workflow and the update sequence RUNNING at 1, COMPLETED at 2. -/
theorem C1_witness :
    dictGet "w" (register_workflow "w" "standard" 0 [])
      = some (freshRecord "w" "standard" 0) ∧
    (∃ r', dictGet "w" (applyStatusUpdates "w"
        [(WorkflowStatus.running, 1), (WorkflowStatus.completed, 2)]
        (register_workflow "w" "standard" 0 [])) = some r' ∧
      r'.completed_at = lastTerminalWrite
        (freshRecord "w" "standard" 0).completed_at
        [(WorkflowStatus.running, 1), (WorkflowStatus.completed, 2)]) :=
  ⟨rfl, C1_completed_at_tracks_last_terminal "w"
    [(WorkflowStatus.running, 1), (WorkflowStatus.completed, 2)]
    (register_workflow "w" "standard" 0 []) (freshRecord "w" "standard" 0) rfl⟩

/-- Claim C4, amended: for an id with no record, the mutation paths
`update_status` and `add_task_result` silently no-op and leave the registry
unchanged, the Manager query paths `get_workflow_status` and `cancel_workflow`
raise the not-found error, but the registry-level `get_workflow` does not
raise — it returns the `None` sentinel (its codomain is `Option`, with no
error alternative). -/
theorem C4_missing_id_behaviour (workflow_id : String) (st : WorkflowStatus)
    (t : WorkflowTaskResult) (now : Int) (reg : Registry)
    (h : dictGet workflow_id reg = none) :
    update_workflow_status workflow_id st now reg = reg ∧
    add_task_result workflow_id t now reg = reg ∧
    get_workflow workflow_id reg = none ∧
    get_workflow_status workflow_id reg
      = Except.error (OrchError.notFound workflow_id) ∧
    cancel_workflow workflow_id now reg
      = Except.error (OrchError.notFound workflow_id) := by
  refine ⟨?_, ?_, h, ?_, ?_⟩
  · unfold update_workflow_status
    rw [h]
  · unfold add_task_result
    rw [h]
  · unfold get_workflow_status get_workflow
    rw [h]
  · unfold cancel_workflow get_workflow
    rw [h]

/-- Claim C4 counterexample: on the empty registry, `get_workflow` returns the
`None` sentinel rather than raising — its result type is an `Option`, so the
claimed `NotFoundError` from the registry-level get cannot occur; the raise
happens only in the Manager-level `get_workflow_status`. -/
theorem C4_counterexample :
    get_workflow "w" ([] : Registry) = none ∧
    get_workflow_status "w" ([] : Registry)
      = Except.error (OrchError.notFound "w") :=
  ⟨rfl, rfl⟩

/-- Witness for C4: the amended theorem applied to the empty registry. -/
theorem C4_witness :
    dictGet "w" ([] : Registry) = none ∧
    (update_workflow_status "w" WorkflowStatus.running 1 [] = [] ∧
     add_task_result "w"
       { task_id := "w-compliance", agent_type := "compliance",
         status := "completed" } 1 [] = [] ∧
     get_workflow "w" ([] : Registry) = none ∧
     get_workflow_status "w" ([] : Registry)
       = Except.error (OrchError.notFound "w") ∧
     cancel_workflow "w" 1 ([] : Registry)
       = Except.error (OrchError.notFound "w")) :=
  ⟨rfl, C4_missing_id_behaviour "w" WorkflowStatus.running
    { task_id := "w-compliance", agent_type := "compliance",
      status := "completed" } 1 [] rfl⟩

/-- Claim C5, confirmed: `cancel_workflow` raises not-found when the id is
absent, raises the invalid-state error whenever the current status is not
RUNNING (in particular for PENDING and for an already CANCELED workflow), and
for a RUNNING workflow performs exactly one transition to CANCELED, after
which a second cancel raises the invalid-state error. -/
theorem C5_cancel_semantics (workflow_id : String) (now : Int) (reg : Registry) :
    (dictGet workflow_id reg = none →
      cancel_workflow workflow_id now reg
        = Except.error (OrchError.notFound workflow_id)) ∧
    (∀ r, dictGet workflow_id reg = some r →
      r.status ≠ WorkflowStatus.running →
      cancel_workflow workflow_id now reg
        = Except.error (OrchError.invalidState workflow_id r.status)) ∧
    (∀ r, dictGet workflow_id reg = some r →
      r.status = WorkflowStatus.running →
      cancel_workflow workflow_id now reg
        = Except.ok
            ({ id := workflow_id
               status := WorkflowStatus.canceled
               message := "Workflow " ++ workflow_id ++ " has been canceled" },
             update_workflow_status workflow_id WorkflowStatus.canceled now reg) ∧
      (dictGet workflow_id
          (update_workflow_status workflow_id WorkflowStatus.canceled now reg)).map
        WorkflowRecord.status = some WorkflowStatus.canceled ∧
      (∀ now2, cancel_workflow workflow_id now2
          (update_workflow_status workflow_id WorkflowStatus.canceled now reg)
        = Except.error (OrchError.invalidState workflow_id WorkflowStatus.canceled))) := by
  refine ⟨?_, ?_, ?_⟩
  · intro h
    simp [cancel_workflow, get_workflow, h]
  · intro r hr hns
    simp [cancel_workflow, get_workflow, hr, hns]
  · intro r hr hrun
    have hupd : dictGet workflow_id
        (update_workflow_status workflow_id WorkflowStatus.canceled now reg)
          = some (statusUpd WorkflowStatus.canceled now r) := by
      rw [dictGet_update_status_self, hr]
      rfl
    refine ⟨?_, ?_, ?_⟩
    · simp [cancel_workflow, get_workflow, hr, hrun]
    · rw [hupd]
      rfl
    · intro now2
      simp [cancel_workflow, get_workflow, hupd, statusUpd]

/-- Witness for C5: a PENDING workflow cannot be canceled — the theorem
applied to a registry holding one freshly registered (PENDING) record. -/
theorem C5_witness :
    dictGet "w" [("w", freshRecord "w" "standard" 0)]
      = some (freshRecord "w" "standard" 0) ∧
    (freshRecord "w" "standard" 0).status ≠ WorkflowStatus.running ∧
    cancel_workflow "w" 3 [("w", freshRecord "w" "standard" 0)]
      = Except.error (OrchError.invalidState "w" (freshRecord "w" "standard" 0).status) :=
  ⟨rfl, by decide,
   (C5_cancel_semantics "w" 3 [("w", freshRecord "w" "standard" 0)]).2.1
     (freshRecord "w" "standard" 0) rfl (by decide)⟩

/-- Claim C6, confirmed: when the Stage Runner's `process` raises during
`run_workflow`, the registry bookkeeping completes before the error
propagates: the returned outcome is the triggering error itself, and the
workflow record ends with status FAILED and exactly one task entry, whose
status is "failed", whose agent/stage name is "orchestrator", and whose
error message is the (non-empty) triggering message. -/
theorem C6_failure_path (pid uid wty e : String) (t0 t1 : Int) (reg : Registry)
    (he : e ≠ "") :
    (run_workflow pid uid wty (Except.error e) t0 t1 reg).1 = Except.error e ∧
    (∃ r, dictGet pid ((run_workflow pid uid wty (Except.error e) t0 t1 reg).2)
        = some r ∧
      r.status = WorkflowStatus.failed ∧
      r.tasks.length = 1 ∧
      ∀ tk ∈ r.tasks, tk.status = "failed" ∧ tk.agent_type = "orchestrator" ∧
        ∃ m, tk.error = some m ∧ m ≠ "") := by
  constructor
  · rfl
  · have hfinal : (run_workflow pid uid wty (Except.error e) t0 t1 reg).2
        = add_task_result pid
            { task_id := pid ++ "-error", agent_type := "orchestrator",
              status := "failed", result := none, error := some e,
              processing_time_ms := none } t1
            (update_workflow_status pid WorkflowStatus.failed t1
              (update_workflow_status pid WorkflowStatus.running t0
                (register_workflow pid wty t0 reg))) := rfl
    rw [hfinal]
    simp only [dictGet_add_task_self, dictGet_update_status_self,
      dictGet_register_self, Option.map_some']
    refine ⟨_, rfl, ?_, ?_, ?_⟩
    · rfl
    · rfl
    · intro tk htk
      have : tk = { task_id := pid ++ "-error", agent_type := "orchestrator",
                    status := "failed", result := none, error := some e,
                    processing_time_ms := none } := by
        simpa [taskUpd, statusUpd, freshRecord] using htk
      subst this
      exact ⟨rfl, rfl, e, rfl, he⟩

/-- Witness for C6: the theorem applied to a concrete failing run ("boom") on
the empty registry. -/
theorem C6_witness :
    ("boom" : String) ≠ "" ∧
    ((run_workflow "W1" "u1" "standard" (Except.error "boom") 0 1 []).1
        = Except.error "boom" ∧
     (∃ r, dictGet "W1"
          ((run_workflow "W1" "u1" "standard" (Except.error "boom") 0 1 []).2)
          = some r ∧
        r.status = WorkflowStatus.failed ∧
        r.tasks.length = 1 ∧
        ∀ tk ∈ r.tasks, tk.status = "failed" ∧ tk.agent_type = "orchestrator" ∧
          ∃ m, tk.error = some m ∧ m ≠ "")) :=
  ⟨by decide, C6_failure_path "W1" "u1" "standard" "boom" 0 1 [] (by decide)⟩

/-- Claim C7, confirmed: for a present id, `update_status` installs the
requested status unconditionally, whatever the current status; consequently,
after a successful cancel (recorded status CANCELED), the in-flight
execution's terminal `update_status` still overwrites the record with
COMPLETED — cancellation only flips the recorded status and does not block
the terminal write. -/
theorem C7_update_status_unconditional (workflow_id : String)
    (st : WorkflowStatus) (now : Int) (reg : Registry) (r : WorkflowRecord)
    (h : dictGet workflow_id reg = some r) :
    dictGet workflow_id (update_workflow_status workflow_id st now reg)
      = some (statusUpd st now r) ∧
    ∀ (nowC nowT : Int) (v : CancelView) (reg' : Registry),
      cancel_workflow workflow_id nowC reg = Except.ok (v, reg') →
      (dictGet workflow_id
          (update_workflow_status workflow_id WorkflowStatus.completed nowT reg')).map
        WorkflowRecord.status = some WorkflowStatus.completed := by
  constructor
  · rw [dictGet_update_status_self, h]
    rfl
  · intro nowC nowT v reg' hc
    simp only [cancel_workflow, get_workflow, h] at hc
    by_cases hrun : r.status = WorkflowStatus.running
    · rw [if_pos hrun] at hc
      have hpair : (({ id := workflow_id
                       status := WorkflowStatus.canceled
                       message := "Workflow " ++ workflow_id ++ " has been canceled" } : CancelView),
                    update_workflow_status workflow_id WorkflowStatus.canceled nowC reg)
          = (v, reg') := by
        simpa using hc
      have hreg' : reg'
          = update_workflow_status workflow_id WorkflowStatus.canceled nowC reg :=
        (congrArg Prod.snd hpair).symm
      subst hreg'
      have hmid : dictGet workflow_id
          (update_workflow_status workflow_id WorkflowStatus.canceled nowC reg)
            = some (statusUpd WorkflowStatus.canceled nowC r) := by
        rw [dictGet_update_status_self, h]
        rfl
      rw [dictGet_update_status_self, hmid]
      rfl
    · rw [if_neg hrun] at hc
      exact absurd hc (by simp)

/-- Witness for C7: cancel a RUNNING workflow, then issue the terminal
COMPLETED update — the recorded status ends as COMPLETED. -/
theorem C7_witness :
    dictGet "w" [("w", statusUpd WorkflowStatus.running 1 (freshRecord "w" "standard" 0))]
      = some (statusUpd WorkflowStatus.running 1 (freshRecord "w" "standard" 0)) ∧
    cancel_workflow "w" 4 [("w", statusUpd WorkflowStatus.running 1 (freshRecord "w" "standard" 0))]
      = Except.ok
          ({ id := "w", status := WorkflowStatus.canceled,
             message := "Workflow w has been canceled" },
           update_workflow_status "w" WorkflowStatus.canceled 4
             [("w", statusUpd WorkflowStatus.running 1 (freshRecord "w" "standard" 0))]) ∧
    (dictGet "w" (update_workflow_status "w" WorkflowStatus.completed 5
        (update_workflow_status "w" WorkflowStatus.canceled 4
          [("w", statusUpd WorkflowStatus.running 1 (freshRecord "w" "standard" 0))]))).map
      WorkflowRecord.status = some WorkflowStatus.completed :=
  ⟨rfl, rfl,
   (C7_update_status_unconditional "w" WorkflowStatus.completed 5
      [("w", statusUpd WorkflowStatus.running 1 (freshRecord "w" "standard" 0))]
      (statusUpd WorkflowStatus.running 1 (freshRecord "w" "standard" 0)) rfl).2
     4 5
     { id := "w", status := WorkflowStatus.canceled,
       message := "Workflow w has been canceled" }
     (update_workflow_status "w" WorkflowStatus.canceled 4
       [("w", statusUpd WorkflowStatus.running 1 (freshRecord "w" "standard" 0))])
     rfl⟩

/-- Claim C8, confirmed: `cleanup` keeps exactly the records whose age
`now - created_at` does not strictly exceed `max_age_hours * 3600` seconds —
removed records are exactly those strictly older, surviving records are
unchanged — and the returned count is the number of records removed. -/
theorem C8_cleanup_removes_exactly_old (max_age_hours now : Int)
    (reg : Registry) (hnd : (reg.map Prod.fst).Nodup) :
    (∀ workflow_id r,
      dictGet workflow_id ((cleanup_old_workflows max_age_hours now reg).2) = some r
        ↔ dictGet workflow_id reg = some r ∧
          ¬ (now - r.created_at > max_age_hours * 3600)) ∧
    (cleanup_old_workflows max_age_hours now reg).1
      = reg.length - ((cleanup_old_workflows max_age_hours now reg).2).length := by
  constructor
  · intro workflow_id r
    unfold cleanup_old_workflows
    dsimp only
    rw [dictGet_filter_iff workflow_id r _ reg hnd]
    constructor
    · rintro ⟨h1, h2⟩
      exact ⟨h1, by simpa using h2⟩
    · rintro ⟨h1, h2⟩
      exact ⟨h1, by simpa using h2⟩
  · unfold cleanup_old_workflows
    dsimp only
    have hnot : (fun p : String × WorkflowRecord =>
        decide (¬ (now - p.2.created_at > max_age_hours * 3600)))
        = (fun p : String × WorkflowRecord =>
            !(decide (now - p.2.created_at > max_age_hours * 3600))) := by
      funext p
      exact decide_not
    rw [hnot]
    have hpart := length_filter_partition
      (fun p : String × WorkflowRecord =>
        decide (now - p.2.created_at > max_age_hours * 3600)) reg
    omega

/-- Witness for C8: records created 25 hours and 1 hour before `now = 90000`
with `max_age_hours = 24` — exactly the old one is removed and the count is 1
(the extra conjuncts evaluate the concrete outcome). -/
theorem C8_witness :
    (([("a", freshRecord "a" "standard" 0),
       ("b", freshRecord "b" "standard" 86400)] : Registry).map Prod.fst).Nodup ∧
    (cleanup_old_workflows 24 90000
        [("a", freshRecord "a" "standard" 0),
         ("b", freshRecord "b" "standard" 86400)]).1
      = ([("a", freshRecord "a" "standard" 0),
          ("b", freshRecord "b" "standard" 86400)] : Registry).length
        - ((cleanup_old_workflows 24 90000
            [("a", freshRecord "a" "standard" 0),
             ("b", freshRecord "b" "standard" 86400)]).2).length ∧
    (cleanup_old_workflows 24 90000
        [("a", freshRecord "a" "standard" 0),
         ("b", freshRecord "b" "standard" 86400)]).1 = 1 ∧
    dictGet "a" ((cleanup_old_workflows 24 90000
        [("a", freshRecord "a" "standard" 0),
         ("b", freshRecord "b" "standard" 86400)]).2) = none ∧
    dictGet "b" ((cleanup_old_workflows 24 90000
        [("a", freshRecord "a" "standard" 0),
         ("b", freshRecord "b" "standard" 86400)]).2)
      = some (freshRecord "b" "standard" 86400) :=
  ⟨by decide,
   (C8_cleanup_removes_exactly_old 24 90000
     [("a", freshRecord "a" "standard" 0),
      ("b", freshRecord "b" "standard" 86400)] (by decide)).2,
   by decide, by decide, by decide⟩

/-- Claim C9, confirmed: registering an id that already has a record installs
a fresh record with no merge — after the second register the record has empty
tasks, empty results and status PENDING, and registering twice equals a
single fresh registration; moreover `run_workflow`'s effect on its own id is
independent of whatever record previously existed there (the second call's
register silently replaces the first record's history, so `run_workflow` on
the same id does not merge — it is not idempotent in that sense). -/
theorem C9_register_overwrites_fresh (workflow_id workflow_type1 workflow_type2 : String)
    (n1 n2 : Int) (reg : Registry) :
    register_workflow workflow_id workflow_type2 n2
        (register_workflow workflow_id workflow_type1 n1 reg)
      = register_workflow workflow_id workflow_type2 n2 reg ∧
    dictGet workflow_id (register_workflow workflow_id workflow_type2 n2
        (register_workflow workflow_id workflow_type1 n1 reg))
      = some { id := workflow_id, type := workflow_type2,
               status := WorkflowStatus.pending, tasks := [], created_at := n2,
               updated_at := n2, completed_at := none, results := [] } ∧
    ∀ (user_id wty : String) (outcome : Except String (List (String × StageVal)))
      (t0 t1 : Int) (r0 : WorkflowRecord),
      dictGet workflow_id ((run_workflow workflow_id user_id wty outcome t0 t1
          (dictSet workflow_id r0 reg)).2)
        = dictGet workflow_id ((run_workflow workflow_id user_id wty outcome t0 t1 reg).2) := by
  refine ⟨?_, ?_, ?_⟩
  · unfold register_workflow
    exact dictSet_dictSet_self _ _ _ _
  · unfold register_workflow
    rw [dictGet_dictSet_self]
    rfl
  · intro user_id wty outcome t0 t1 r0
    exact run_workflow_lookup_congr workflow_id user_id wty outcome t0 t1 _ _

/-- Claim C3, confirmed: every registry operation preserves, for each record,
`updated_at >= created_at` (given a monotone clock: the operation's reading is
not before any stored `created_at`); and within the life of a record — the
record exists before and after the operation and the operation is not a
(record-replacing) registration of that id — the tasks list length never
decreases and `results` entries are only added or overwritten, never
removed. -/
theorem C3_registry_invariants_preserved (op : RegistryOp) (reg : Registry)
    (hnd : (reg.map Prod.fst).Nodup)
    (hclock : ∀ p ∈ reg, p.2.created_at ≤ op.now)
    (hinv : ∀ p ∈ reg, p.2.created_at ≤ p.2.updated_at) :
    (∀ p ∈ applyRegistryOp op reg, p.2.created_at ≤ p.2.updated_at) ∧
    (∀ workflow_id r r', dictGet workflow_id reg = some r →
      dictGet workflow_id (applyRegistryOp op reg) = some r' →
      op.isRegisterOf workflow_id = false →
      r.tasks.length ≤ r'.tasks.length ∧
      (∀ k v, dictGet k r.results = some v → ∃ x, dictGet k r'.results = some x)) := by
  cases op with
  | regOp i ty n =>
      constructor
      · intro p hp
        rcases mem_dictSet hp with hpe | hpm
        · subst hpe
          exact le_refl _
        · exact hinv p hpm
      · intro workflow_id r r' hr hr' hreg
        have hne : workflow_id ≠ i := by
          simp only [RegistryOp.isRegisterOf, beq_eq_false_iff_ne] at hreg
          exact fun h => hreg h.symm
        have heq : dictGet workflow_id
            (applyRegistryOp (RegistryOp.regOp i ty n) reg)
              = dictGet workflow_id reg :=
          dictGet_dictSet_ne _ _ hne
        rw [heq, hr] at hr'
        simp only [Option.some.injEq] at hr'
        subst hr'
        exact ⟨le_refl _, fun k v hk => ⟨v, hk⟩⟩
  | statusOp i st n =>
      constructor
      · intro p hp
        have hp' : p ∈ update_workflow_status i st n reg := hp
        unfold update_workflow_status at hp'
        cases hg : dictGet i reg with
        | none =>
            rw [hg] at hp'
            exact hinv p hp'
        | some w =>
            rw [hg] at hp'
            rcases mem_dictSet hp' with hpe | hpm
            · subst hpe
              exact hclock (i, w) (mem_of_dictGet_eq_some hg)
            · exact hinv p hpm
      · intro workflow_id r r' hr hr' _
        by_cases hid : workflow_id = i
        · subst hid
          have heq : dictGet workflow_id
              (applyRegistryOp (RegistryOp.statusOp workflow_id st n) reg)
                = (dictGet workflow_id reg).map (statusUpd st n) :=
            dictGet_update_status_self workflow_id st n reg
          rw [heq, hr] at hr'
          simp only [Option.map_some', Option.some.injEq] at hr'
          subst hr'
          exact ⟨le_refl _, fun k v hk => ⟨v, hk⟩⟩
        · have heq : dictGet workflow_id
              (applyRegistryOp (RegistryOp.statusOp i st n) reg)
                = dictGet workflow_id reg :=
            dictGet_update_status_ne st n reg hid
          rw [heq, hr] at hr'
          simp only [Option.some.injEq] at hr'
          subst hr'
          exact ⟨le_refl _, fun k v hk => ⟨v, hk⟩⟩
  | taskOp i t n =>
      constructor
      · intro p hp
        have hp' : p ∈ add_task_result i t n reg := hp
        unfold add_task_result at hp'
        cases hg : dictGet i reg with
        | none =>
            rw [hg] at hp'
            exact hinv p hp'
        | some w =>
            rw [hg] at hp'
            rcases mem_dictSet hp' with hpe | hpm
            · subst hpe
              show (taskUpd t n w).created_at ≤ (taskUpd t n w).updated_at
              rw [taskUpd_created_at, taskUpd_updated_at]
              exact hclock (i, w) (mem_of_dictGet_eq_some hg)
            · exact hinv p hpm
      · intro workflow_id r r' hr hr' _
        by_cases hid : workflow_id = i
        · subst hid
          have heq : dictGet workflow_id
              (applyRegistryOp (RegistryOp.taskOp workflow_id t n) reg)
                = (dictGet workflow_id reg).map (taskUpd t n) :=
            dictGet_add_task_self workflow_id t n reg
          rw [heq, hr] at hr'
          simp only [Option.map_some', Option.some.injEq] at hr'
          subst hr'
          constructor
          · rw [taskUpd_tasks]
            simp
          · intro k v hk
            exact taskUpd_results_mono t n r k v hk
        · have heq : dictGet workflow_id
              (applyRegistryOp (RegistryOp.taskOp i t n) reg)
                = dictGet workflow_id reg :=
            dictGet_add_task_ne t n reg hid
          rw [heq, hr] at hr'
          simp only [Option.some.injEq] at hr'
          subst hr'
          exact ⟨le_refl _, fun k v hk => ⟨v, hk⟩⟩
  | cleanupOp m n =>
      constructor
      · intro p hp
        have hp' : p ∈ reg.filter
            (fun q => decide (¬ (n - q.2.created_at > m * 3600))) := hp
        exact hinv p (List.mem_of_mem_filter hp')
      · intro workflow_id r r' hr hr' _
        have hr'' : dictGet workflow_id (reg.filter
            (fun q => decide (¬ (n - q.2.created_at > m * 3600)))) = some r' := hr'
        obtain ⟨hg, _⟩ := (dictGet_filter_iff workflow_id r' _ reg hnd).mp hr''
        rw [hr] at hg
        simp only [Option.some.injEq] at hg
        subst hg
        exact ⟨le_refl _, fun k v hk => ⟨v, hk⟩⟩

/-- Witness for C3: a status update to RUNNING at clock 5 on a registry with
one record created at clock 1 preserves the timestamp invariant. -/
theorem C3_witness :
    (([("w", freshRecord "w" "standard" 1)] : Registry).map Prod.fst).Nodup ∧
    (∀ p ∈ ([("w", freshRecord "w" "standard" 1)] : Registry),
      p.2.created_at ≤ (RegistryOp.statusOp "w" WorkflowStatus.running 5).now) ∧
    (∀ p ∈ ([("w", freshRecord "w" "standard" 1)] : Registry),
      p.2.created_at ≤ p.2.updated_at) ∧
    (∀ p ∈ applyRegistryOp (RegistryOp.statusOp "w" WorkflowStatus.running 5)
        [("w", freshRecord "w" "standard" 1)],
      p.2.created_at ≤ p.2.updated_at) :=
  ⟨by decide, by decide, by decide,
   (C3_registry_invariants_preserved
     (RegistryOp.statusOp "w" WorkflowStatus.running 5)
     [("w", freshRecord "w" "standard" 1)]
     (by decide) (by decide) (by decide)).1⟩

/-- Claim C2: evaluation of the round-trip at the concrete input. Running
workflow "W1" to COMPLETED with the three stage payloads and the process
recommendation "Recommend approval": `run_workflow`'s own return value does
carry that recommendation, but `get_workflow_result` on the resulting
registry returns the three stored stage payloads together with the fallback
string "No recommendation available" — the run's recommendation is never
persisted to the registry (`run_workflow` skips the "recommendation" key when
adding task results), so the dedicated result query cannot surface it. -/
theorem C2_recommendation_not_persisted :
    (run_workflow "W1" "u1" "standard"
        (Except.ok [("compliance", StageVal.payload [("status", "compliant")]),
                    ("evaluation", StageVal.payload [("score", "85")]),
                    ("market", StageVal.payload [("trend", "up")]),
                    ("recommendation", StageVal.str "Recommend approval")])
        0 1 []).1
      = Except.ok
          { proposal_id := "W1"
            compliance := StageVal.payload [("status", "compliant")]
            evaluation := StageVal.payload [("score", "85")]
            market := StageVal.payload [("trend", "up")]
            recommendation := StageVal.str "Recommend approval"
            processing_time_ms := 1000
            workflow_type := "standard" } ∧
    get_workflow_result "W1"
        ((run_workflow "W1" "u1" "standard"
            (Except.ok [("compliance", StageVal.payload [("status", "compliant")]),
                        ("evaluation", StageVal.payload [("score", "85")]),
                        ("market", StageVal.payload [("trend", "up")]),
                        ("recommendation", StageVal.str "Recommend approval")])
            0 1 []).2)
      = Except.ok
          { proposal_id := "W1"
            workflow_type := "standard"
            processing_time_ms := 1000
            compliance := StageVal.payload [("status", "compliant")]
            evaluation := StageVal.payload [("score", "85")]
            market := StageVal.payload [("trend", "up")]
            recommendation := StageVal.str "No recommendation available" } :=
  ⟨rfl, rfl⟩

/-- Claim C10, amended: the registry's `get_workflow` hands out the stored
record object itself (the same address the registry dereferences), never a
copy: an in-place mutation through the returned object is visible in every
subsequent registry read of that id, and a registry mutation
(`update_status`) is visible through any previously returned object. -/
theorem C10_get_returns_live_reference (reg : RefRegistry) (workflow_id : String)
    (a : Nat) (w : WorkflowRecord) (f : WorkflowRecord → WorkflowRecord)
    (hga : reg.get_workflow_ref workflow_id = some a)
    (hw : reg.read a = some w) :
    (reg.write_through a f).get_workflow_ref workflow_id = some a ∧
    (reg.write_through a f).read a = some (f w) ∧
    ∀ st now, (reg.update_status_ref workflow_id st now).read a
        = some (statusUpd st now w) := by
  have hwrite : ∀ g : WorkflowRecord → WorkflowRecord,
      (reg.write_through a g).read a = some (g w) := by
    intro g
    unfold RefRegistry.write_through RefRegistry.read
    unfold RefRegistry.read at hw
    rw [hw]
    exact dictGet_dictSet_self a (g w) reg.store
  refine ⟨hga, hwrite f, ?_⟩
  intro st now
  unfold RefRegistry.get_workflow_ref at hga
  unfold RefRegistry.update_status_ref
  rw [hga]
  exact hwrite (statusUpd st now)

/-- Claim C10 counterexample: after registering "w", `get_workflow` returns
the registry's own stored object (address 0); mutating through it flips the
status the registry subsequently reports from PENDING to CANCELED (so the
returned value is not a copy), and conversely a registry-side
`update_status` changes what the previously returned object reads (so it is
not an immutable snapshot). -/
theorem C10_counterexample :
    ((RefRegistry.empty.register_workflow_ref "w" "standard" 0).get_workflow_ref "w"
        = some 0) ∧
    (((RefRegistry.empty.register_workflow_ref "w" "standard" 0).read 0).map
        WorkflowRecord.status = some WorkflowStatus.pending) ∧
    ((((RefRegistry.empty.register_workflow_ref "w" "standard" 0).write_through 0
          (statusUpd WorkflowStatus.canceled 5)).read 0).map WorkflowRecord.status
        = some WorkflowStatus.canceled) ∧
    ((((RefRegistry.empty.register_workflow_ref "w" "standard" 0).update_status_ref
          "w" WorkflowStatus.running 3).read 0).map WorkflowRecord.status
        = some WorkflowStatus.running) := by
  exact ⟨rfl, rfl, rfl, rfl⟩

/-- Witness for C10: the amended theorem applied to the one-record registry
obtained by registering "w". -/
theorem C10_witness :
    (RefRegistry.empty.register_workflow_ref "w" "standard" 0).get_workflow_ref "w"
      = some 0 ∧
    (RefRegistry.empty.register_workflow_ref "w" "standard" 0).read 0
      = some (freshRecord "w" "standard" 0) ∧
    (((RefRegistry.empty.register_workflow_ref "w" "standard" 0).write_through 0
        (statusUpd WorkflowStatus.canceled 5)).get_workflow_ref "w" = some 0 ∧
     ((RefRegistry.empty.register_workflow_ref "w" "standard" 0).write_through 0
        (statusUpd WorkflowStatus.canceled 5)).read 0
       = some (statusUpd WorkflowStatus.canceled 5 (freshRecord "w" "standard" 0)) ∧
     ∀ st now,
       ((RefRegistry.empty.register_workflow_ref "w" "standard" 0).update_status_ref
          "w" st now).read 0
         = some (statusUpd st now (freshRecord "w" "standard" 0))) :=
  ⟨rfl, rfl,
   C10_get_returns_live_reference
     (RefRegistry.empty.register_workflow_ref "w" "standard" 0) "w" 0
     (freshRecord "w" "standard" 0) (statusUpd WorkflowStatus.canceled 5)
     rfl rfl⟩
